import Mathlib

/-!
Verification of the g9ptools 9P2000 file server against its specification.

The definitions below are a shallow embedding of the Go sources:
  - fileserver/fileserver.go  (protocol engine: tag set, fid table, handlers)
  - fileserver/utils.go       (FilePath helpers, setStat)
  - ramfs/ramtree/tree.go     (in-memory tree: RAMTree, RAMFile, open handles)

Go maps become functions to Option, pointers become values (object identity
is tracked through the unique id field that the tree allocates), machine
integers become Nat with explicit masks where bit width matters, fallible
calls return Except, and a Go nil-pointer panic is modelled as Option.none.
Wall-clock effects (time.Now) and lock operations are elided: they do not
influence any of the data flow proved about below.
-/

namespace G9PTools

/-! ## Protocol constants

Open modes, mode bits and Qid types live in the external g9p protocol
package; their numeric values are fixed by the 9P2000 wire protocol as
described in the specification. -/

/-- Modelled from the spec: OpenMode low two bits select read. -/
def OREAD : Nat := 0

/-- Modelled from the spec: OpenMode low two bits select write. -/
def OWRITE : Nat := 1

/-- Modelled from the spec: OpenMode low two bits select read-write. -/
def ORDWR : Nat := 2

/-- Modelled from the spec: OpenMode low two bits select execute. -/
def OEXEC : Nat := 3

/-- Modelled from the spec: FileMode directory bit 0x80000000. -/
def DMDIR : Nat := 0x80000000

/-- Modelled from the spec: FileMode append-only bit 0x40000000. -/
def DMAPPEND : Nat := 0x40000000

/-- Modelled from the spec: Qid type byte for directories. -/
def QTDIR : Nat := 0x80

/-- Modelled from the spec: Qid type byte for plain files. -/
def QTFILE : Nat := 0

/-- Modelled from the spec: message header size 4 + 1 + 2 = 7 bytes
(g9p protocol.HeaderSize). -/
def headerSize : Nat := 7

/-- Modelled from the spec: an Rread body is count, a u32, plus the data
bytes, so an empty ReadResponse encodes to 4 bytes
(g9p ReadResponse.EncodedLength with no data). -/
def emptyRreadLen : Nat := 4

/-- Sentinel for an unchanged u16 wstat field (all ones). -/
def sentinel16 : Nat := 65535

/-- Sentinel for an unchanged u32 wstat field (all ones). -/
def sentinel32 : Nat := 4294967295

/-- Sentinel for an unchanged u64 wstat field (all ones). -/
def sentinel64 : Nat := 18446744073709551615

/-- Bitwise complement on a 32-bit quantity, the Go unary caret on uint32. -/
def compl32 (x : Nat) : Nat := 0xFFFFFFFF ^^^ x

/-! ## The in-memory tree (ramfs/ramtree/tree.go)

RAMTree and RAMFile share their metadata fields; an Entity is the tagged
variant the engine dispatches on (Go does so through interface downcasts).
The global monotonic id counter is threaded explicitly as an argument where
a fresh id is needed. -/

structure Meta where
  id : Nat
  name : String
  user : String
  group : String
  muser : String
  version : Nat
  atime : Nat
  mtime : Nat
  permissions : Nat

inductive Entity where
  | dir (meta : Meta) (children : List Entity)
  | file (meta : Meta) (content : List Nat)

def Entity.meta : Entity → Meta
  | .dir m _ => m
  | .file m _ => m

def entId (e : Entity) : Nat := (Entity.meta e).id

def entIsDir : Entity → Bool
  | .dir _ _ => true
  | .file _ _ => false

def entChildren : Entity → List Entity
  | .dir _ children => children
  | .file _ _ => []

def entContent : Entity → List Nat
  | .dir _ _ => []
  | .file _ content => content

structure Qid where
  qtype : Nat
  version : Nat
  path : Nat
deriving DecidableEq

/-- RAMTree.Qid and RAMFile.Qid. -/
def entQid : Entity → Qid
  | .dir m _ => ⟨QTDIR, m.version, m.id⟩
  | .file m _ => ⟨QTFILE, m.version, m.id⟩

/-- permCheck from ramfs/ramtree/tree.go: owner bits sit at offset 6,
other bits at offset 0; the low two bits of mode select the operation. -/
def permCheck (owner : Bool) (permissions : Nat) (mode : Nat) : Bool :=
  let offset : Nat := if owner then 6 else 0
  if mode &&& 3 == OREAD then permissions &&& (1 <<< (2 + offset)) != 0
  else if mode &&& 3 == OWRITE then permissions &&& (1 <<< (1 + offset)) != 0
  else if mode &&& 3 == ORDWR then
    (permissions &&& (1 <<< (2 + offset)) != 0) &&
    (permissions &&& (1 <<< (1 + offset)) != 0)
  else permissions &&& (1 <<< offset) != 0

/-- RAMTree.Open and RAMFile.Open both reduce to a permCheck against the
owner of the entity; success hands out a fresh handle. -/
def entOpenOk (user : String) (e : Entity) (mode : Nat) : Bool :=
  permCheck (user == (Entity.meta e).user) (Entity.meta e).permissions mode

/-- Child lookup: the tree stores children keyed by name
(RAMTree.Walk iterates the map and compares the key). -/
def findChild (children : List Entity) (name : String) : Option Entity :=
  children.find? (fun c => (Entity.meta c).name == name)

/-- RAMTree.Walk(user, name): an execute-permission check on the directory,
then a lookup; a missing child is .ok none, not an error. -/
def ramWalk (user : String) (m : Meta) (children : List Entity) (name : String) :
    Except String (Option Entity) :=
  if !permCheck (user == m.user) m.permissions OEXEC then .error "access denied"
  else .ok (findChild children name)

/-! ## Tag set and flush (fileserver.go: register / flush / flushed)

The Go tag table is map[protocol.Tag]bool used as a set; it is modelled as
a duplicate-free list. register inserts (it reports an error on a duplicate
and leaves the set unchanged; callers ignore that error). flush deletes
oldtag if present. flushed checks membership of the completing request tag:
present means the response is emitted (and the tag retired), absent means
the response is suppressed. -/

def registerTag (tags : List Nat) (t : Nat) : List Nat :=
  if t ∈ tags then tags else t :: tags

def flushTag (tags : List Nat) (t : Nat) : List Nat :=
  if t ∈ tags then tags.erase t else tags

/-- Returns the new tag set and true exactly when the response must be
suppressed (the tag was no longer live). -/
def flushedCheck (tags : List Nat) (t : Nat) : List Nat × Bool :=
  if t ∈ tags then (tags.erase t, false) else (tags, true)

/-- The complete FileServer.Flush handler for one Tflush request carrying
tag and oldtag: register the tag, delete oldtag from the live set, then run
the deferred flushed check on the own tag. The Bool is true exactly when an
Rflush response is emitted. -/
def runFlush (tags : List Nat) (tag oldtag : Nat) : List Nat × Bool :=
  let ts1 := registerTag tags tag
  let ts2 := flushTag ts1 oldtag
  let c := flushedCheck ts2 tag
  (c.1, !c.2)

theorem registerTag_mem (tags : List Nat) (t : Nat) : t ∈ registerTag tags t := by
  unfold registerTag
  split
  · assumption
  · exact List.mem_cons_self t tags

theorem registerTag_nodup (tags : List Nat) (t : Nat) (h : tags.Nodup) :
    (registerTag tags t).Nodup := by
  unfold registerTag
  split
  · exact h
  · exact List.nodup_cons.mpr ⟨by assumption, h⟩

theorem flushTag_not_mem (tags : List Nat) (t : Nat) (h : tags.Nodup) :
    t ∉ flushTag tags t := by
  unfold flushTag
  split
  · intro hmem
    exact absurd ((h.mem_erase_iff).mp hmem).1 (by simp)
  · assumption

/-! ## Per-session state and fid table (fileserver.go)

A State is the per-fid record; its open field in Go is the OpenFile handle
of the backing layer, and the engine only branches on whether it is nil, so
it is carried as Option Unit here (the handle states themselves are
modelled below as RAMOpenTree and through openFileWrite). The Go
map[protocol.Fid]*State is a function to Option State. -/

structure State where
  location : List Entity
  openHandle : Option Unit
  mode : Nat
  service : String
  username : String

def FidTable := Nat → Option State

def updateFid (fids : FidTable) (fid : Nat) (v : Option State) : FidTable :=
  fun f => if f == fid then v else fids f

/-- FilePath.Current: the last element of the path, nil when empty. -/
def pathCurrent (fp : List Entity) : Option Entity := fp.getLast?

/-- FilePath.Parent: nil when empty, the sole element when the path has
length one, otherwise the second-to-last element. -/
def pathParent (fp : List Entity) : Option Entity :=
  if fp.length ≤ 1 then fp.getLast? else fp.get? (fp.length - 2)

/-! ## Twalk (FileServer.Walk) -/

structure WalkResponse where
  qids : List Qid
deriving DecidableEq

/-- One iteration of the Walk loop body: the OEXEC open check on the
current entity, then the name switch. none means the Go code executed its
goto to the write label (the loop stops, the qids so far are returned). The dot
name is a no-op that still reports a qid; dot-dot moves to
FilePath.Parent and truncates the path only when the path is longer than
one element (at the root, addToLoc stays true, so the root is appended
again, exactly as the source does); any other name requires a directory
and goes through RAMTree.Walk. -/
def walkStep (user : String) (root : Entity) (newloc : List Entity) (name : String) :
    Option (Entity × List Entity) :=
  if !entOpenOk user root OEXEC then none
  else if name == "." then some (root, newloc)
  else if name == ".." then
    match pathParent newloc with
    | none => none
    | some par =>
      if newloc.length > 1 then some (par, newloc.dropLast)
      else some (par, newloc ++ [par])
  else
    match root with
    | .file _ _ => none
    | .dir m children =>
      match ramWalk user m children name with
      | .error _ => none
      | .ok none => none
      | .ok (some child) => some (child, newloc ++ [child])

/-- The Walk loop. The second component is some final-location exactly when
every name was consumed, which is the condition under which the source
(binding at the last index inside the loop) binds the new fid. -/
def walkLoop (user : String) (root : Entity) (newloc : List Entity) :
    List String → List Qid × Option (List Entity)
  | [] => ([], some newloc)
  | name :: rest =>
    match walkStep user root newloc name with
    | none => ([], none)
    | some (root', newloc') =>
      let r := walkLoop user root' newloc' rest
      (entQid root' :: r.1, r.2)

/-- The fresh State bound to newfid: service and username are copied, the
open handle is nil and the mode is the zero value. -/
def cloneState (s : State) (newloc : List Entity) : State :=
  { service := s.service, username := s.username, location := newloc,
    openHandle := none, mode := 0 }

/-- FileServer.Walk: unknown fid, open fid and newfid-in-use errors, the
zero-name clone, the fid-not-dir error, then the loop; the new fid is
bound only when the loop consumed the whole name vector. -/
def walkHandler (fids : FidTable) (fid newfid : Nat) (names : List String) :
    FidTable × Except String WalkResponse :=
  match fids fid with
  | none => (fids, .error "no such fid")
  | some s =>
    if s.openHandle.isSome then (fids, .error "fid cannot be open for walk")
    else if (fids newfid).isSome then (fids, .error "fid already in use")
    else if names.isEmpty then
      (updateFid fids newfid (some (cloneState s s.location)), .ok ⟨[]⟩)
    else
      match pathCurrent s.location with
      | none => (fids, .error "no such file")
      | some cur =>
        if !entIsDir cur then (fids, .error "fid not dir")
        else
          let r := walkLoop s.username cur s.location names
          match r.2 with
          | some newloc => (updateFid fids newfid (some (cloneState s newloc)), .ok ⟨r.1⟩)
          | none => (fids, .ok ⟨r.1⟩)

theorem walkLoop_some_length (user : String) :
    ∀ (names : List String) (root : Entity) (newloc : List Entity) (loc : List Entity),
      (walkLoop user root newloc names).2 = some loc →
      (walkLoop user root newloc names).1.length = names.length := by
  intro names
  induction names with
  | nil => intro root newloc loc _; rfl
  | cons name rest ih =>
    intro root newloc loc h
    simp only [walkLoop] at h ⊢
    cases hs : walkStep user root newloc name with
    | none => rw [hs] at h; simp at h
    | some pr =>
      rw [hs] at h
      obtain ⟨root', newloc'⟩ := pr
      dsimp only at h ⊢
      simp only [List.length_cons]
      rw [ih root' newloc' loc h]

theorem walkLoop_none_length (user : String) :
    ∀ (names : List String) (root : Entity) (newloc : List Entity),
      (walkLoop user root newloc names).2 = none →
      (walkLoop user root newloc names).1.length < names.length := by
  intro names
  induction names with
  | nil => intro root newloc h; simp [walkLoop] at h
  | cons name rest ih =>
    intro root newloc h
    simp only [walkLoop] at h ⊢
    cases hs : walkStep user root newloc name with
    | none =>
      dsimp only
      exact Nat.succ_pos _
    | some pr =>
      rw [hs] at h
      obtain ⟨root', newloc'⟩ := pr
      dsimp only at h ⊢
      simp only [List.length_cons]
      exact Nat.succ_lt_succ (ih root' newloc' h)

/-! Concrete fixtures used by witnesses and counterexamples. -/

def rootMetaW : Meta :=
  { id := 0, name := "", user := "u", group := "g", muser := "u",
    version := 0, atime := 0, mtime := 0, permissions := 0o777 }

def rootEntW : Entity := .dir rootMetaW []

def s0W : State :=
  { location := [rootEntW], openHandle := none, mode := 0, service := "",
    username := "u" }

def fids0W : FidTable := updateFid (fun _ => none) 0 (some s0W)

/-- C1 counterexample: a Twalk from fid 0 (bound to an empty root owned by
the requesting user) to newfid 1 with the single name "nope" misses on the
first name, yet the server replies with an Rwalk carrying zero qids, not
with an Rerror, and leaves newfid unbound. This refutes the claim that the
first-name miss produces a NoFile error reply. -/
theorem twalk_first_miss_counterexample :
    (walkHandler fids0W 0 1 ["nope"]).2 = .ok ⟨[]⟩ ∧
    (walkHandler fids0W 0 1 ["nope"]).1 1 = none :=
  ⟨rfl, rfl⟩

/-- C1 (amended): for every Twalk with a non-empty name vector on a bound,
unopened fid whose entity is a directory that grants the user execute
permission, if the first name is neither dot nor dot-dot and is not found
in that directory, the server replies with an Rwalk carrying zero qids (no
error reply) and the fid table is returned unchanged, so newfid is not
bound. -/
theorem twalk_first_miss_empty (fids : FidTable) (fid newfid : Nat) (s : State)
    (w : String) (rest : List String) (m : Meta) (children : List Entity)
    (hb : fids fid = some s) (hopen : s.openHandle = none)
    (hnew : fids newfid = none) (_hne : newfid ≠ fid)
    (hcur : pathCurrent s.location = some (.dir m children))
    (hexec : permCheck (s.username == m.user) m.permissions OEXEC = true)
    (hdot : w ≠ ".") (hdd : w ≠ "..")
    (hmiss : findChild children w = none) :
    walkHandler fids fid newfid (w :: rest) = (fids, .ok ⟨[]⟩) := by
  have h1 : (w == ".") = false := beq_eq_false_iff_ne.mpr hdot
  have h2 : (w == "..") = false := beq_eq_false_iff_ne.mpr hdd
  have hstep : walkStep s.username (.dir m children) s.location w = none := by
    simp only [walkStep, entOpenOk, Entity.meta, hexec, h1, h2, ramWalk, hmiss,
      Bool.not_true, Bool.false_eq_true, if_false, ite_false]
  simp only [walkHandler, hb, hopen, hnew, Option.isSome_none, Bool.false_eq_true,
    if_false, List.isEmpty_cons, hcur, entIsDir, Bool.not_true, walkLoop, hstep]

/-- C1 witness: the amended statement instantiated at the concrete table. -/
theorem twalk_first_miss_empty_witness :
    walkHandler fids0W 0 1 ["nope"] = (fids0W, .ok ⟨[]⟩) :=
  twalk_first_miss_empty fids0W 0 1 s0W "nope" [] rootMetaW [] rfl rfl rfl
    (by decide) rfl (by decide) (by decide) (by decide) rfl

/-- C2: a Twalk on a bound, unopened fid with an unbound newfid that stops
early (the ok reply carries fewer qids than names) leaves the fid table
unchanged; newfid carries a binding afterwards only when every name
resolved; and the record of the original fid is untouched in all cases. -/
theorem twalk_partial_frame (fids : FidTable) (fid newfid : Nat)
    (names : List String) (s : State) (fids' : FidTable) (resp : WalkResponse)
    (hb : fids fid = some s) (hopen : s.openHandle = none)
    (hnew : fids newfid = none)
    (hrun : walkHandler fids fid newfid names = (fids', .ok resp)) :
    (resp.qids.length < names.length → fids' = fids) ∧
    ((fids' newfid).isSome → resp.qids.length = names.length) ∧
    fids' fid = fids fid := by
  have hfidne : (fid == newfid) = false := by
    refine beq_eq_false_iff_ne.mpr fun he => ?_
    rw [he, hnew] at hb
    exact Option.noConfusion hb
  simp only [walkHandler, hb, hopen, hnew, Option.isSome_none, Bool.false_eq_true,
    if_false] at hrun
  by_cases hemp : names.isEmpty
  · rw [if_pos hemp] at hrun
    injection hrun with hf hr
    injection hr with hq
    have hq' : resp.qids = [] := by rw [← hq]
    subst hf
    refine ⟨?_, ?_, ?_⟩
    · intro hlt
      rw [hq', List.isEmpty_iff.mp hemp] at hlt
      simp at hlt
    · intro _
      rw [hq', List.isEmpty_iff.mp hemp]
      simp
    · simp only [updateFid, hfidne, Bool.false_eq_true, if_false]
  · rw [if_neg hemp] at hrun
    split at hrun
    · exact absurd (congrArg Prod.snd hrun) (by simp)
    · rename_i cur hcur
      split at hrun
      · exact absurd (congrArg Prod.snd hrun) (by simp)
      · split at hrun
        · rename_i newloc hfin
          injection hrun with hf hr
          injection hr with hq
          have hq' : resp.qids = (walkLoop s.username cur s.location names).1 := by
            rw [← hq]
          have hlen := walkLoop_some_length s.username names cur s.location newloc hfin
          subst hf
          refine ⟨?_, ?_, ?_⟩
          · intro hlt
            rw [hq', hlen] at hlt
            exact absurd hlt (lt_irrefl _)
          · intro _
            rw [hq', hlen]
          · simp only [updateFid, hfidne, Bool.false_eq_true, if_false]
        · rename_i hfin
          injection hrun with hf hr
          injection hr with hq
          have hq' : resp.qids = (walkLoop s.username cur s.location names).1 := by
            rw [← hq]
          subst hf
          refine ⟨fun _ => rfl, ?_, rfl⟩
          intro habs
          rw [hnew] at habs
          simp at habs

/-- C2 witness: the frame statement instantiated at a concrete one-name
walk that stops on its first name. -/
theorem twalk_partial_frame_witness :
    ((⟨[]⟩ : WalkResponse).qids.length < (["nope"] : List String).length →
      fids0W = fids0W) ∧
    ((fids0W 1).isSome →
      (⟨[]⟩ : WalkResponse).qids.length = (["nope"] : List String).length) ∧
    fids0W 0 = fids0W 0 :=
  twalk_partial_frame fids0W 0 1 ["nope"] s0W fids0W ⟨[]⟩ rfl rfl rfl rfl

/-- C3 counterexample: a Tflush whose oldtag equals its own tag registers
its tag, then its own flush removes it, so the deferred emission check
suppresses the Rflush. This refutes the claim that Tflush always replies
Rflush. -/
theorem tflush_self_flush_counterexample :
    (runFlush [] 5 5).2 = false := rfl

/-- C3 (amended): over any duplicate-free live-tag set, (a) a completing
request whose tag is not live emits no response; (b) after a flush of tag
t, t is no longer live, so the completion of the request tagged t is
suppressed; (c) a Tflush emits its Rflush exactly when its oldtag differs
from its own tag — in particular it replies even when oldtag was not in
flight, but a self-targeting Tflush is silent. -/
theorem flush_semantics (tags : List Nat) (t tag oldtag : Nat)
    (hnd : tags.Nodup) :
    (t ∉ tags → (flushedCheck tags t).2 = true) ∧
    ((flushedCheck (flushTag tags t) t).2 = true) ∧
    ((runFlush tags tag oldtag).2 = true ↔ tag ≠ oldtag) := by
  refine ⟨?_, ?_, ?_⟩
  · intro hmem
    simp only [flushedCheck, if_neg hmem]
  · have hnm := flushTag_not_mem tags t hnd
    simp only [flushedCheck, if_neg hnm]
  · have hmem1 : tag ∈ registerTag tags tag := registerTag_mem tags tag
    have hnd1 : (registerTag tags tag).Nodup := registerTag_nodup tags tag hnd
    constructor
    · intro hemit heq
      subst heq
      have hnm : tag ∉ flushTag (registerTag tags tag) tag :=
        flushTag_not_mem (registerTag tags tag) tag hnd1
      simp only [runFlush, flushedCheck, if_neg hnm, Bool.not_true] at hemit
      exact absurd hemit (by simp)
    · intro hneq
      have hmem2 : tag ∈ flushTag (registerTag tags tag) oldtag := by
        unfold flushTag
        split
        · exact (List.Nodup.mem_erase_iff hnd1).mpr ⟨hneq, hmem1⟩
        · exact hmem1
      simp only [runFlush, flushedCheck, if_pos hmem2, Bool.not_false]

/-- C3 witness: the amended statement at a concrete tag set. -/
theorem flush_semantics_witness :
    ((3 : Nat) ∉ ([] : List Nat) → (flushedCheck [] 3).2 = true) ∧
    ((flushedCheck (flushTag [] 3) 3).2 = true) ∧
    ((runFlush [] 1 2).2 = true ↔ (1 : Nat) ≠ 2) :=
  flush_semantics [] 3 1 2 List.nodup_nil

/-! ## Tremove (FileServer.Remove and RAMTree.Remove)

RAMTree.Remove takes the requesting user and the entity to delete; the Go
code compares children to the target by pointer, which the value model
renders as comparison of the unique allocated ids. The engine clunks the
fid up front with a deferred map delete and ignores the outcome of the
backing Remove call. -/

/-- RAMTree.Remove: write-permission check on the parent directory, then a
search for the target among the children; a directory target must be empty,
otherwise the deletion fails with NotEmpty; a missing target is an error. -/
def ramRemove (pm : Meta) (children : List Entity) (user : String)
    (other : Entity) : Except String (List Entity) :=
  if !permCheck (user == pm.user) pm.permissions OWRITE then .error "access denied"
  else
    match children.find? (fun c => entId c == entId other) with
    | none => .error "no such file"
    | some _ =>
      if entIsDir other && !(entChildren other).isEmpty then
        .error "directory not empty"
      else .ok (children.eraseP (fun c => entId c == entId other))

structure RemoveResponse
deriving DecidableEq

/-- FileServer.Remove: the fid is deleted from the table (and its open
handle closed) by a deferred call that runs on every exit path after the
lookup; removing the root (a path of length one) is a silent no-op; for
deeper paths the backing removal is attempted and its error ignored. The
third component reports the outcome of the backing RAMTree.Remove call so
that theorems can refer to it; it is none when no removal was attempted. -/
def removeHandler (fids : FidTable) (fid : Nat) :
    FidTable × Except String RemoveResponse × Option (Except String (List Entity)) :=
  match fids fid with
  | none => (fids, .error "no such fid", none)
  | some s =>
    let fids' := updateFid fids fid none
    if s.location.length ≤ 1 then (fids', .ok ⟨⟩, none)
    else
      match pathParent s.location, pathCurrent s.location with
      | some (.dir pm pcs), some cur =>
        (fids', .ok ⟨⟩, some (ramRemove pm pcs s.username cur))
      | _, _ => (fids', .ok ⟨⟩, none)

/-! Concrete fixtures: a root holding one non-empty subdirectory. -/

def leafMetaW : Meta :=
  { id := 2, name := "leaf", user := "u", group := "g", muser := "u",
    version := 0, atime := 0, mtime := 0, permissions := 0o644 }

def subMetaW : Meta :=
  { id := 1, name := "sub", user := "u", group := "g", muser := "u",
    version := 0, atime := 0, mtime := 0, permissions := 0o777 }

def subEntW : Entity := .dir subMetaW [.file leafMetaW []]

def rootEntW2 : Entity := .dir rootMetaW [subEntW]

def sRemW : State :=
  { location := [rootEntW2, subEntW], openHandle := none, mode := 0,
    service := "", username := "u" }

def fidsRemW : FidTable := updateFid (fun _ => none) 0 (some sRemW)

/-- C5 counterexample: Tremove on fid 0, which is bound to a non-empty
subdirectory of the root. The backing RAMTree.Remove fails with the
NotEmpty error, but the server ignores it and replies Rremove, not an
error. This refutes the claim that the server replies with an error. -/
theorem tremove_nonempty_counterexample :
    (removeHandler fidsRemW 0).2.1 = .ok ⟨⟩ ∧
    (removeHandler fidsRemW 0).2.2 = some (.error "directory not empty") :=
  ⟨rfl, rfl⟩

/-- C5 (amended): for every Tremove on a bound fid whose path is deeper
than the root, whose current entity is a non-empty directory found among
the children of its parent, and whose user has write permission on the
parent, the backing RAMTree.Remove fails with the NotEmpty error
"directory not empty" — but the server ignores that error: it replies
Rremove and clunks the fid anyway, and the directory is not removed. -/
theorem tremove_nonempty_error_ignored (fids : FidTable) (fid : Nat) (s : State)
    (pm : Meta) (pcs : List Entity) (m : Meta) (cs : List Entity)
    (hb : fids fid = some s)
    (hlen : 1 < s.location.length)
    (hpar : pathParent s.location = some (.dir pm pcs))
    (hcur : pathCurrent s.location = some (.dir m cs))
    (hperm : permCheck (s.username == pm.user) pm.permissions OWRITE = true)
    (hfound : (pcs.find? (fun c => entId c == m.id)).isSome)
    (hne : cs ≠ []) :
    removeHandler fids fid =
      (updateFid fids fid none, .ok ⟨⟩, some (.error "directory not empty")) := by
  have hemp : cs.isEmpty = false := by
    cases cs
    · exact absurd rfl hne
    · rfl
  have hrem : ramRemove pm pcs s.username (.dir m cs) = .error "directory not empty" := by
    obtain ⟨c, hc⟩ := Option.isSome_iff_exists.mp hfound
    have hc' : pcs.find? (fun c => entId c == entId (Entity.dir m cs)) = some c := hc
    simp only [ramRemove, hperm, Bool.not_true, Bool.false_eq_true, if_false, hc',
      entIsDir, entChildren, hemp, Bool.not_false, Bool.and_self, if_true]
  simp only [removeHandler, hb, hpar, hcur, hrem]
  rw [if_neg (Nat.not_le.mpr hlen)]

/-- C5 witness: the amended statement at the concrete table. -/
theorem tremove_nonempty_error_ignored_witness :
    removeHandler fidsRemW 0 =
      (updateFid fidsRemW 0 none, .ok ⟨⟩, some (.error "directory not empty")) :=
  tremove_nonempty_error_ignored fidsRemW 0 sRemW rootMetaW [subEntW] subMetaW
    [.file leafMetaW []] rfl (by decide) rfl rfl (by decide) (by decide)
    (List.cons_ne_nil _ _)

/-- C6: Tremove on any bound fid removes the fid from the table (closing
its open handle with it) and replies Rremove, regardless of whether the
underlying removal succeeded, failed, or was skipped because the fid
referenced the root. -/
theorem tremove_always_clunks (fids : FidTable) (fid : Nat) (s : State)
    (hb : fids fid = some s) :
    (removeHandler fids fid).1 = updateFid fids fid none ∧
    (removeHandler fids fid).2.1 = .ok ⟨⟩ := by
  simp only [removeHandler, hb]
  split
  · exact ⟨rfl, rfl⟩
  · split
    · exact ⟨rfl, rfl⟩
    · exact ⟨rfl, rfl⟩

/-- C6 witness: a Tremove of the root-bound fid 0 still clunks it. -/
theorem tremove_always_clunks_witness :
    (removeHandler fids0W 0).1 = updateFid fids0W 0 none ∧
    (removeHandler fids0W 0).2.1 = .ok ⟨⟩ :=
  tremove_always_clunks fids0W 0 s0W rfl

/-! ## Tread size cap (FileServer.Read)

The engine computes
  count := int(fs.MaxSize) - (&ReadResponse{}).EncodedLength() + HeaderSize
(the Go expression adds HeaderSize where the stated intent subtracts it),
clamps count down to the requested count, allocates the buffer and lets the
open-file Read fill at most the remaining content. Go int arithmetic is
modelled over Int. -/

/-- The cap expression from FileServer.Read, verbatim: maxsize minus the
empty Rread encoded length plus the header size. -/
def readCountCap (maxSize : Nat) : Int :=
  (maxSize : Int) - (emptyRreadLen : Int) + (headerSize : Int)

/-- The buffer length after the clamp against the requested count. -/
def readBufLen (maxSize rCount : Nat) : Int :=
  if readCountCap maxSize > (rCount : Int) then (rCount : Int) else readCountCap maxSize

/-- The number of data bytes an Rread carries for a plain file of the given
content length: the engine seeks the handle to offset (RAMOpenFile.Seek
rejects offsets past the end) and RAMOpenFile.Read fills at most the buffer
length and at most the bytes remaining after offset. -/
def readHandlerDataLen (maxSize rCount contentLen offset : Nat) :
    Except String Nat :=
  let count := (readBufLen maxSize rCount).toNat
  if contentLen < offset then .error "seek past length"
  else .ok (min count (contentLen - offset))

/-- Wire size of an encoded Rread carrying the given number of data bytes:
header plus the fixed count field plus the data. -/
def rreadWireSize (dataLen : Nat) : Nat := headerSize + emptyRreadLen + dataLen

/-- C4: evaluating FileServer.Read at maxsize 20 on a 30-byte file with a
Tread of offset 0 count 30 returns 23 data bytes, because the cap is
computed as maxsize - 4 + 7 = maxsize + 3 (the header size is added where
it must be subtracted), and the resulting Rread encodes to 34 bytes, which
exceeds the negotiated maxsize of 20. The claim that the encoded Rread
never exceeds maxsize is violated by the code. -/
theorem tread_cap_exceeds_maxsize :
    readHandlerDataLen 20 30 30 0 = .ok 23 ∧ 20 < rreadWireSize 23 := by
  constructor
  · rfl
  · decide

/-! ## Twrite on append-only files (RAMOpenFile.Write via FileServer.Write)

FileServer.Write seeks the open handle to the request offset and calls
Write. RAMOpenFile.Write carries the source comment "TODO(kl): handle
append-only": it writes at the seeked offset unconditionally, growing the
content when the write extends past the end, and never consults the
DMAPPEND bit of the file it writes to. -/

/-- RAMOpenFile.Write on the content buffer: grow when needed, then copy
the data at the offset. The caller guarantees offset is at most the
content length (RAMOpenFile.Seek enforced it). -/
def ramFileWrite (content : List Nat) (offset : Nat) (data : List Nat) :
    List Nat :=
  if content.length < data.length + offset then content.take offset ++ data
  else content.take offset ++ data ++ content.drop (offset + data.length)

/-- The write path of the engine for an open file handle: Seek rejects an
offset past the end, then the data lands at the offset — for every file,
append-only or not. Writing a directory handle is refused. The version
counter is bumped as in the source; timestamps are elided. -/
def openFileWrite : Entity → Nat → List Nat → Except String Entity
  | .file m content, offset, data =>
    if content.length < offset then .error "seek past length"
    else .ok (.file { m with version := m.version + 1 }
      (ramFileWrite content offset data))
  | .dir _ _, _, _ => .error "cannot write to directory"

def appendMetaW : Meta :=
  { id := 9, name := "log", user := "u", group := "g", muser := "u",
    version := 0, atime := 0, mtime := 0, permissions := DMAPPEND ||| 0o644 }

def appendFileW : Entity := .file appendMetaW [97, 98]

/-- C7: a Twrite of two bytes at offset 0 to a two-byte file whose mode has
DMAPPEND set overwrites the file from offset 0; the offset is not ignored
and nothing is appended at end-of-file, contradicting the claim (and the
source carries a TODO stating append-only is unhandled). The expected
content under the claim would be the old content with the data appended. -/
theorem twrite_append_ignores_dmappend :
    appendMetaW.permissions &&& DMAPPEND ≠ 0 ∧
    openFileWrite appendFileW 0 [88, 89] =
      .ok (.file { appendMetaW with version := 1 } [88, 89]) ∧
    ([88, 89] : List Nat) ≠ [97, 98] ++ [88, 89] := by
  refine ⟨by decide, rfl, by decide⟩

/-! ## Stat values and their wire encoding

protocol.Stat lives in the external g9p package; the struct layout and its
encoder are fixed by the 9P2000 wire format described in the specification:
little-endian integers, length-prefixed strings, a leading u16 size that
excludes itself. -/

structure PStat where
  type : Nat
  dev : Nat
  qid : Qid
  mode : Nat
  atime : Nat
  mtime : Nat
  length : Nat
  name : String
  uid : String
  gid : String
  muid : String
deriving DecidableEq

/-- RAMTree.Stat and RAMFile.Stat: a directory reports its permissions with
DMDIR set, substitutes "/" for an empty name and length zero; a file
reports its content length and (as the source does) its owner for the gid
and muid fields as well. -/
def entStat : Entity → PStat
  | .dir m _ =>
    { type := 0, dev := 0, qid := ⟨QTDIR, m.version, m.id⟩,
      mode := m.permissions ||| DMDIR, atime := m.atime, mtime := m.mtime,
      length := 0, name := if m.name == "" then "/" else m.name,
      uid := m.user, gid := m.group, muid := m.muser }
  | .file m content =>
    { type := 0, dev := 0, qid := ⟨QTFILE, m.version, m.id⟩,
      mode := m.permissions, atime := m.atime, mtime := m.mtime,
      length := content.length, name := m.name,
      uid := m.user, gid := m.user, muid := m.user }

/-- Modelled from the spec: little-endian u16. -/
def enc16 (n : Nat) : List Nat := [n % 256, n / 256 % 256]

/-- Modelled from the spec: little-endian u32. -/
def enc32 (n : Nat) : List Nat :=
  [n % 256, n / 256 % 256, n / 65536 % 256, n / 16777216 % 256]

/-- Modelled from the spec: little-endian u64. -/
def enc64 (n : Nat) : List Nat :=
  enc32 (n % 4294967296) ++ enc32 (n / 4294967296)

/-- Modelled from the spec: a string is a u16 length followed by its bytes
(names here are ASCII, so code points coincide with bytes). -/
def encString (s : String) : List Nat :=
  enc16 s.length ++ s.data.map Char.toNat

/-- Modelled from the spec: a qid is type u8, version u32, path u64. -/
def encQid (q : Qid) : List Nat :=
  [q.qtype % 256] ++ enc32 q.version ++ enc64 q.path

/-- Modelled from the spec: the stat body behind the leading size field. -/
def encStatBody (st : PStat) : List Nat :=
  enc16 st.type ++ enc32 st.dev ++ encQid st.qid ++ enc32 st.mode ++
  enc32 st.atime ++ enc32 st.mtime ++ enc64 st.length ++
  encString st.name ++ encString st.uid ++ encString st.gid ++
  encString st.muid

/-- Modelled from the spec: Stat.Encode emits the body size (excluding the
size field itself) and then the body. -/
def encStat (st : PStat) : List Nat :=
  enc16 (encStatBody st).length ++ encStatBody st

/-- RAMOpenTree.update: walk the children in order and concatenate the
encodings of their stats. -/
def statStream (children : List Entity) : List Nat :=
  (children.map (fun c => encStat (entStat c))).flatten

/-! ## The directory open handle (RAMOpenTree) -/

structure RAMOpenTree where
  buffer : List Nat
  offset : Nat
deriving DecidableEq

/-- RAMOpenTree.update against the current children of the directory. -/
def rotUpdate (children : List Entity) (ot : RAMOpenTree) : RAMOpenTree :=
  { ot with buffer := statStream children }

/-- RAMOpenTree.Seek: only offset 0 or the current offset is accepted, and
on every accepted seek the offset is stored and update() re-serializes the
children into the buffer. -/
def rotSeek (children : List Entity) (ot : RAMOpenTree) (offset : Nat) :
    Except String RAMOpenTree :=
  if offset ≠ 0 ∧ offset ≠ ot.offset then .error "can only seek to 0 on directory"
  else .ok (rotUpdate children { ot with offset := offset })

/-- RAMTree.Open: a permission check, then a fresh handle whose buffer is
empty — open time takes no snapshot. -/
def ramTreeOpen (user : String) (m : Meta) (mode : Nat) :
    Except String RAMOpenTree :=
  if !permCheck (user == m.user) m.permissions mode then .error "access denied"
  else .ok { buffer := [], offset := 0 }

/-- RAMOpenTree.Read: slice from the buffer at the cursor and advance it;
the buffer itself is never touched. The Go code subtracts the offset from
the buffer length in uint64; when the offset exceeds the buffer length the
subtraction wraps and the subsequent slice panics, which is modelled as
none. -/
def rotRead (ot : RAMOpenTree) (n : Nat) : Option (List Nat × RAMOpenTree) :=
  if ot.buffer.length < ot.offset then none
  else
    let rlen := min n (ot.buffer.length - ot.offset)
    some ((ot.buffer.drop ot.offset).take rlen, { ot with offset := ot.offset + rlen })

def fileAW : Entity :=
  .file { id := 11, name := "a", user := "u", group := "g", muser := "u",
          version := 0, atime := 0, mtime := 0, permissions := 0o644 } []

def fileBW : Entity :=
  .file { id := 12, name := "b", user := "u", group := "g", muser := "u",
          version := 0, atime := 0, mtime := 0, permissions := 0o644 } []

/-- The handle state after seeking to 0 over one child and reading one
byte: the buffer holds the serialized stat of that child and the cursor
sits at 1. -/
def rotAfterReadW : RAMOpenTree := { buffer := statStream [fileAW], offset := 1 }

/-- C8 counterexample: open yields an empty buffer (no snapshot at open
time); after seek(0) and a one-byte read the cursor is at the non-zero
offset 1; a seek to that same current offset — issued after a second child
appeared in the directory — succeeds and REPLACES the buffer with the new
serialization, so the buffer does change on a non-zero seek to the current
position, refuting the claim that only a seek-to-zero resamples. -/
theorem dir_seek_current_refreshes_counterexample :
    ramTreeOpen "u" rootMetaW OREAD = .ok { buffer := [], offset := 0 } ∧
    rotSeek [fileAW] { buffer := [], offset := 0 } 0 =
      .ok { buffer := statStream [fileAW], offset := 0 } ∧
    rotRead { buffer := statStream [fileAW], offset := 0 } 1 =
      some ((statStream [fileAW]).take 1, rotAfterReadW) ∧
    rotAfterReadW.offset ≠ 0 ∧
    rotSeek [fileAW, fileBW] rotAfterReadW rotAfterReadW.offset =
      .ok { buffer := statStream [fileAW, fileBW], offset := 1 } ∧
    statStream [fileAW, fileBW] ≠ statStream [fileAW] := by
  refine ⟨rfl, rfl, ?_, by decide, rfl, by decide⟩
  rfl

/-- C8 (amended): the serialized stat-stream buffer of a directory handle
is resampled from the current children on EVERY successful Seek — both a
seek to zero and a seek to the current (possibly non-zero) offset — not at
open time (open hands out an empty buffer), and reads never refresh it:
they only slice from it and advance the cursor. -/
theorem dir_handle_buffer_policy :
    (∀ (children : List Entity) (ot : RAMOpenTree) (o : Nat),
      o = 0 ∨ o = ot.offset →
      rotSeek children ot o = .ok { buffer := statStream children, offset := o }) ∧
    (∀ (ot : RAMOpenTree) (n : Nat) (out : List Nat × RAMOpenTree),
      rotRead ot n = some out → out.2.buffer = ot.buffer) ∧
    (∀ (user : String) (m : Meta) (mode : Nat) (h : RAMOpenTree),
      ramTreeOpen user m mode = .ok h → h.buffer = []) := by
  refine ⟨?_, ?_, ?_⟩
  · intro children ot o ho
    have hc : ¬(o ≠ 0 ∧ o ≠ ot.offset) := by
      rcases ho with h | h
      · exact fun hab => hab.1 h
      · exact fun hab => hab.2 h
    rw [rotSeek, if_neg hc]
    rfl
  · intro ot n out hrun
    unfold rotRead at hrun
    split at hrun
    · exact Option.noConfusion hrun
    · injection hrun with h
      rw [← h]
  · intro user m mode h hrun
    unfold ramTreeOpen at hrun
    split at hrun
    · exact Except.noConfusion hrun
    · injection hrun with h'
      rw [← h']

/-- C8 witness: the amended statement applied at a concrete seek to the
current offset, a concrete read, and a concrete open. -/
theorem dir_handle_buffer_policy_witness :
    rotSeek [fileAW, fileBW] rotAfterReadW 1 =
      .ok { buffer := statStream [fileAW, fileBW], offset := 1 } ∧
    ((statStream [fileAW]).take 1, rotAfterReadW).2.buffer =
      ({ buffer := statStream [fileAW], offset := 0 } : RAMOpenTree).buffer ∧
    ({ buffer := [], offset := 0 } : RAMOpenTree).buffer = [] :=
  ⟨dir_handle_buffer_policy.1 [fileAW, fileBW] rotAfterReadW 1 (Or.inr rfl),
   dir_handle_buffer_policy.2.1 { buffer := statStream [fileAW], offset := 0 } 1
     ((statStream [fileAW]).take 1, rotAfterReadW) rfl,
   dir_handle_buffer_policy.2.2 "u" rootMetaW OREAD { buffer := [], offset := 0 } rfl⟩

/-! ## Tcreate (RAMTree.Create) -/

/-- RAMTree.Create: write-permission check on the parent, an existing child
with the name is an error, then the permission mask — DMDIR requested
creates a directory whose low nine bits are ANDed with the parent low
bits, otherwise a file whose rw bits are ANDed with the parent rw bits
(and whose execute bits are zeroed by the 0666 mask). The new entity takes
the parent owner and group; the fresh id from the global counter is
threaded as an argument. -/
def ramCreate (m : Meta) (children : List Entity) (user name : String)
    (perms : Nat) (freshId : Nat) : Except String Entity :=
  if !permCheck (user == m.user) m.permissions OWRITE then .error "access denied"
  else if (findChild children name).isSome then .error "file already exists"
  else if perms &&& DMDIR != 0 then
    .ok (.dir { id := freshId, name := name, user := m.user, group := m.group,
                muser := m.user, version := 0, atime := 0, mtime := 0,
                permissions :=
                  perms &&& (compl32 0o777 ||| (m.permissions &&& 0o777)) } [])
  else
    .ok (.file { id := freshId, name := name, user := m.user, group := m.group,
                 muser := m.user, version := 0, atime := 0, mtime := 0,
                 permissions :=
                   perms &&& (compl32 0o666 ||| (m.permissions &&& 0o666)) } [])

/-- C9: every successful create stores exactly the claimed permission mask
on the new entity: directories keep all high DM bits and AND the low nine
bits with the parent, files keep the high bits outside 0666 and AND the rw
bits with the parent. -/
theorem tcreate_perm_mask (m : Meta) (children : List Entity) (user name : String)
    (perms freshId : Nat) (e : Entity)
    (h : ramCreate m children user name perms freshId = .ok e) :
    (Entity.meta e).permissions =
      if perms &&& DMDIR ≠ 0 then
        perms &&& (compl32 0o777 ||| (m.permissions &&& 0o777))
      else perms &&& (compl32 0o666 ||| (m.permissions &&& 0o666)) := by
  unfold ramCreate at h
  split at h
  · exact Except.noConfusion h
  · split at h
    · exact Except.noConfusion h
    · split at h
      · rename_i hd
        injection h with h'
        rw [← h', if_pos (bne_iff_ne.mp hd)]
        rfl
      · rename_i hd
        have hz : perms &&& DMDIR = 0 := by simpa using hd
        injection h with h'
        rw [← h', if_neg (fun hne => hne hz)]
        rfl

def createdFileW : Entity :=
  .file { id := 5, name := "new", user := "u", group := "g", muser := "u",
          version := 0, atime := 0, mtime := 0,
          permissions := 0o644 &&& (compl32 0o666 ||| (0o777 &&& 0o666)) } []

/-- C9 witness: creating a plain 0644 file in the 0777 root. -/
theorem tcreate_perm_mask_witness :
    (Entity.meta createdFileW).permissions =
      if (0o644 : Nat) &&& DMDIR ≠ 0 then
        0o644 &&& (compl32 0o777 ||| (rootMetaW.permissions &&& 0o777))
      else 0o644 &&& (compl32 0o666 ||| (rootMetaW.permissions &&& 0o666)) :=
  tcreate_perm_mask rootMetaW [] "u" "new" 0o644 5 createdFileW rfl

/-! ## Twstat (setStat from fileserver/utils.go)

setStat applies the wstat delta field by field; unchanged fields carry
all-ones (integers) or empty-string sentinels. The two permission blocks at
the end open the parent for writing: the rename block guards against a nil
parent, the needWrite block (taken for uid, gid and mtime changes) does
not — on a nil parent interface the Go call panics, modelled as none. -/

/-- The tail of setStat after the name block: uid and gid updates set
needWrite, a muid change is refused, then the two parent-open permission
blocks run; in the needWrite block the parent is dereferenced without a
nil check. -/
def setStatFinish (user : String) (parent : Option Entity) (ostat nstat : PStat)
    (needParentWrite needWrite : Bool) : Option (Except String PStat) :=
  let needWrite := needWrite || decide (nstat.uid ≠ "" ∧ nstat.uid ≠ ostat.uid)
  let ostat := if nstat.uid ≠ "" ∧ nstat.uid ≠ ostat.uid then
      { ostat with uid := nstat.uid } else ostat
  let needWrite := needWrite || decide (nstat.gid ≠ "" ∧ nstat.gid ≠ ostat.gid)
  let ostat := if nstat.gid ≠ "" ∧ nstat.gid ≠ ostat.gid then
      { ostat with gid := nstat.gid } else ostat
  if nstat.muid ≠ "" ∧ nstat.muid ≠ ostat.muid then
    some (.error "it is illegal to modify muid")
  else if needParentWrite &&
      (match parent with
       | some p => !entOpenOk user p OWRITE
       | none => false) then
    some (.error "access denied")
  else if needWrite then
    match parent with
    | none => none
    | some p =>
      if !entOpenOk user p OWRITE then some (.error "access denied")
      else some (.ok ostat)
  else some (.ok ostat)

/-- setStat: the field-by-field checks in source order. The mode update
preserves the DMDIR bit of the old mode; a rename requires a non-nil
parent (a nil parent is the root) and a free name in it. The successful
result is the stat that e.WriteStat receives. -/
def setStat (user : String) (e : Entity) (parent : Option Entity)
    (nstat : PStat) : Option (Except String PStat) :=
  let ostat := entStat e
  if nstat.type ≠ sentinel16 ∧ nstat.type ≠ ostat.type then
    some (.error "it is illegal to modify type")
  else if nstat.dev ≠ sentinel32 ∧ nstat.dev ≠ ostat.dev then
    some (.error "it is illegal to modify dev")
  else if nstat.mode ≠ sentinel32 ∧ nstat.mode ≠ ostat.mode ∧ user ≠ ostat.uid then
    some (.error "only owner can change mode")
  else
    let ostat := if nstat.mode ≠ sentinel32 ∧ nstat.mode ≠ ostat.mode then
        { ostat with mode := ostat.mode &&& DMDIR ||| nstat.mode &&& compl32 DMDIR }
      else ostat
    if nstat.atime ≠ sentinel32 ∧ nstat.atime ≠ ostat.atime then
      some (.error "it is illegal to modify atime")
    else if nstat.mtime ≠ sentinel32 ∧ nstat.mtime ≠ ostat.mtime ∧ user ≠ ostat.uid then
      some (.error "only owner can change mtime")
    else
      let needWrite : Bool :=
        decide (nstat.mtime ≠ sentinel32 ∧ nstat.mtime ≠ ostat.mtime)
      let ostat := if nstat.mtime ≠ sentinel32 ∧ nstat.mtime ≠ ostat.mtime then
          { ostat with mtime := nstat.mtime } else ostat
      if nstat.length ≠ sentinel64 ∧ nstat.length ≠ ostat.length then
        some (.error "change of not permitted")
      else if nstat.name ≠ "" ∧ nstat.name ≠ ostat.name then
        match parent with
        | none => some (.error "it is illegal to rename root")
        | some p =>
          match p with
          | .file _ _ => none
          | .dir pm pcs =>
            match ramWalk user pm pcs nstat.name with
            | .error msg => some (.error msg)
            | .ok (some _) => some (.error "name already taken")
            | .ok none =>
              setStatFinish user parent { ostat with name := nstat.name } nstat
                true needWrite
      else setStatFinish user parent ostat nstat false needWrite

/-- FileServer.WriteStat: the current entity of the fid, the parent only
when the path is deeper than the root, and a call to setStat; a none from
setStat is the Go panic propagating — the handler produces no reply at
all. -/
def writeStatHandler (fids : FidTable) (fid : Nat) (nstat : PStat) :
    Option (Except String Unit) :=
  match fids fid with
  | none => some (.error "no such fid")
  | some s =>
    match pathCurrent s.location with
    | none => some (.error "no such file")
    | some l =>
      let p := if 1 < s.location.length then pathParent s.location else none
      match setStat s.username l p nstat with
      | none => none
      | some (.error msg) => some (.error msg)
      | some (.ok _) => some (.ok ())

/-- A wstat delta that only changes the owner: every other field carries
its sentinel. -/
def wstatDeltaW : PStat :=
  { type := sentinel16, dev := sentinel32, qid := ⟨0, 0, 0⟩, mode := sentinel32,
    atime := sentinel32, mtime := sentinel32, length := sentinel64,
    name := "", uid := "bob", gid := "", muid := "" }

/-- C10: a Twstat on the session root (path length one, so the parent
passed to setStat is nil) whose delta only sets a new uid reaches the
needWrite block, which dereferences the nil parent: the handler panics
instead of returning Rwstat or an Rerror, refuting the totality the claim
asserts for the code (the claim itself states the intended behavior). -/
theorem twstat_root_uid_panics :
    setStat "u" rootEntW none wstatDeltaW = none ∧
    writeStatHandler fids0W 0 wstatDeltaW = none :=
  ⟨rfl, rfl⟩

end G9PTools
